import Mathlib

/-!
Verification development for the kisaan_backend sampling / upload-verification
subsystem.  The definitions below are shallow embeddings of the TypeScript
sources:

* `parseExifGps`, `verificationOutcome` — src/services/cloudinary.service.ts
* `normalizeExifTimestamp`              — src/utils/normalizeExifTimestamp.ts
* `completeHandler`                     — src/controllers/cloudinary.controller.ts
  (the EXIF-verification stage, lines 214-296, and the block-linking
  transaction, lines 377-531, the latter embedded as `linkImageToSession`)
* `submitSessionHandler`                — src/controllers/weekly.controller.ts
* `ensureFarmGrid`, `selectSessionBlocks`, `createSamplingSession`
                                        — src/services/sampling.service.ts

Strings are embedded as `List Char`; machine floats that only flow through
comparisons are embedded as `ℚ`; the transcendental haversine evaluation and
the host JavaScript `Date` parser appear as explicit function parameters.
Database state is embedded as association lists keyed by row id, and the
serializable linking transaction as a pure state transformer.
-/

namespace Kisaan

/-! ## Character/string helpers (JavaScript string primitives) -/

/-- JavaScript whitespace as used by `String.prototype.trim` (ASCII subset;
EXIF payloads contain no exotic Unicode spaces). -/
def isJsSpace (c : Char) : Bool :=
  c = ' ' || c = '\t' || c = '\n' || c = '\r' || c = '\x0b' || c = '\x0c'

/-- JavaScript `s.trim()`. -/
def trimList (l : List Char) : List Char :=
  ((l.dropWhile isJsSpace).reverse.dropWhile isJsSpace).reverse

/-- Numeric value of a digit string (accumulator form, as a decimal reader). -/
def digitsVal (l : List Char) : ℕ :=
  l.foldl (fun a c => 10 * a + (c.toNat - 48)) 0

/-- JavaScript `s.split(sep)` for a one-character separator, JavaScript semantics:
the empty string splits to `[""]`, trailing separators produce empty parts. -/
def splitOnChar (sep : Char) : List Char → List (List Char)
  | [] => [[]]
  | c :: rest =>
    if c = sep then [] :: splitOnChar sep rest
    else
      let parts := splitOnChar sep rest
      (c :: parts.headD []) :: parts.tail

/-- Fractional value of the digit string after a decimal point. -/
def fracVal (l : List Char) : ℚ :=
  (digitsVal l : ℚ) / (10 ^ l.length)

/-- Model of `Number(s)` on an (already trimmed) string without a sign: accepts
`digits`, `digits.digits?`, `.digits`; anything else is NaN (`none`).
This models the JavaScript numeric coercion on the decimal notation that
EXIF payloads use (hexadecimal, exponent and Infinity forms are outside
the modelled input space). -/
def jsNumberUnsigned (l : List Char) : Option ℚ :=
  let ds := l.takeWhile Char.isDigit
  match l.dropWhile Char.isDigit with
  | [] => if ds = [] then none else some (digitsVal ds : ℚ)
  | r :: tail =>
    if r = '.' then
      if ds = [] && tail = [] then none
      else if tail.all Char.isDigit then some ((digitsVal ds : ℚ) + fracVal tail)
      else none
    else none

/-- Model of `Number(s)`: optional sign, then `jsNumberUnsigned`; the empty string
coerces to `0` as in JavaScript. -/
def jsNumber (l : List Char) : Option ℚ :=
  match l with
  | [] => some 0
  | c :: rest =>
    if c = '-' then (jsNumberUnsigned rest).map (fun q => -q)
    else if c = '+' then jsNumberUnsigned rest
    else jsNumberUnsigned (c :: rest)

/-! ## `parseExifGps` (src/services/cloudinary.service.ts, lines 69-111) -/

/-- The per-part rational reader of `parseExifGps`'s DMS branch:
`part.split("/").map(t => t.trim())`, destructure into `numStr`/`denStr`,
NaN when the numerator is not finite, `num / den` when the denominator is
finite and non-zero, otherwise `num`. -/
def toNum (part : List Char) : Option ℚ :=
  let ps := (splitOnChar '/' part).map trimList
  let numStr := ps.headD []
  let denStr := ps[1]?
  match jsNumber numStr with
  | none => none
  | some num =>
    match denStr with
    | none => some num
    | some d =>
      if d = [] then some num
      else
        match jsNumber d with
        | none => some num
        | some den => if den = 0 then some num else some (num / den)

/-- Maximal run of `[\d.]` characters. -/
def secRun (l : List Char) : List Char :=
  l.takeWhile (fun c => c.isDigit || c = '.')

/-- Matches the tail `[^\d]+([\d.]+)` of the fallback regex against `l`
(greedy non-digit run, backtracking so that the final group is non-empty),
returning the captured `[\d.]+` group. -/
def regexTail : List Char → Option (List Char)
  | [] => none
  | c :: rest =>
    if c.isDigit then none
    else
      match regexTail rest with
      | some sec => some sec
      | none =>
        let sec := secRun rest
        if sec = [] then none else some sec

/-- One anchored attempt of the fallback pattern
`(\d+)[^\d]+(\d+)[^\d]+([\d.]+)` starting at the head of `l`. -/
def regexAttempt (l : List Char) : Option (List Char × List Char × List Char) :=
  let d1 := l.takeWhile Char.isDigit
  if d1 = [] then none
  else
    let r1 := l.dropWhile Char.isDigit
    let n1 := r1.takeWhile (fun c => !c.isDigit)
    if n1 = [] then none
    else
      let r2 := r1.dropWhile (fun c => !c.isDigit)
      let d2 := r2.takeWhile Char.isDigit
      if d2 = [] then none
      else
        let r3 := r2.dropWhile Char.isDigit
        match regexTail r3 with
        | some sec => some (d1, d2, sec)
        | none => none

/-- Embeds `s.match(/(\d+)[^\d]+(\d+)[^\d]+([\d.]+)/)`: leftmost match of the
degree/minute/second groups. -/
def regexScan : List Char → Option (List Char × List Char × List Char)
  | [] => none
  | c :: rest =>
    match regexAttempt (c :: rest) with
    | some g => some g
    | none => regexScan rest

/-- The regex fallback branch of `parseExifGps` (source lines 99-108). -/
def dmsFallback (s : List Char) : Option ℚ :=
  match regexScan s with
  | some (d, m, sec) =>
    match jsNumber d, jsNumber m, jsNumber sec with
    | some deg, some mn, some sc => some (deg + mn / 60 + sc / 3600)
    | _, _, _ => none
  | none => none

/-- Embeds `parseExifGps(value)`: `null` for null/undefined/empty input; a plain
decimal is returned as-is; a three-part comma string is read as DMS
rationals; otherwise the fallback regex is tried.  The hemisphere
reference (N/S/E/W) is not an input of the function. -/
def parseExifGps (value : Option (List Char)) : Option ℚ :=
  match value with
  | none => none
  | some v =>
    let s := trimList v
    if s = [] then none
    else
      match jsNumber s with
      | some n => some n
      | none =>
        if s.contains ',' then
          let parts := (splitOnChar ',' s).map trimList
          if parts.length = 3 then
            match toNum (parts.getD 0 []), toNum (parts.getD 1 []),
                  toNum (parts.getD 2 []) with
            | some deg, some mn, some sec => some (deg + mn / 60 + sec / 3600)
            | _, _, _ => dmsFallback s
          else dmsFallback s
        else dmsFallback s

/-- A degrees/minutes/seconds rational EXIF GPS string of the shape
`"d/1,m/1,s/1"`, assembled from the three digit groups. -/
def dmsRationalString (ds ms ss : List Char) : List Char :=
  ds ++ '/' :: '1' :: ',' :: (ms ++ '/' :: '1' :: ',' :: (ss ++ ['/', '1']))

/-! ## `normalizeExifTimestamp` (src/utils/normalizeExifTimestamp.ts) -/

/-- The raw value handed to `normalizeExifTimestamp`: null/undefined, a
JavaScript `Date` object (valid or NaN-valued), or a string. -/
inductive ExifTsInput
  | missing
  | dateObj (timeValue : Option ℕ)
  | str (s : List Char)

/-- Optional fractional-second suffix `(?:\.\d+)?$` of the EXIF regex. -/
def fracSuffixOk : List Char → Bool
  | [] => true
  | '.' :: t => !t.isEmpty && t.all Char.isDigit
  | _ => false

/-- Match of `^(\d{4}):(\d{2}):(\d{2})[ T](\d{2}):(\d{2}):(\d{2})(?:\.\d+)?$`
against the trimmed string; on success, the ISO string
`y-mo-dThh:mm:ssZ` the source builds from the groups. -/
def exifTsMatch (l : List Char) : Option (List Char) :=
  match l with
  | y1 :: y2 :: y3 :: y4 :: c1 :: o1 :: o2 :: c2 :: d1 :: d2 :: sp ::
      h1 :: h2 :: c3 :: m1 :: m2 :: c4 :: s1 :: s2 :: rest =>
    if ([y1, y2, y3, y4, o1, o2, d1, d2, h1, h2, m1, m2, s1, s2].all Char.isDigit)
        && c1 = ':' && c2 = ':' && c3 = ':' && c4 = ':'
        && (sp = ' ' || sp = 'T') && fracSuffixOk rest then
      some ([y1, y2, y3, y4, '-', o1, o2, '-', d1, d2, 'T',
             h1, h2, ':', m1, m2, ':', s1, s2, 'Z'])
    else none
  | _ => none

/-- Embeds `normalizeExifTimestamp(raw)`.  `jsDate` stands for the host JavaScript
`Date` constructor on a string (`none` = invalid date); the function itself
is otherwise embedded branch-for-branch: missing input throws, an invalid
`Date` object throws, the EXIF `YYYY:MM:DD HH:mm:ss` shape is rebuilt as an
ISO string and parsed, any other string falls back to a direct parse, and an
unparseable string throws. -/
def normalizeExifTimestamp (jsDate : List Char → Option ℕ) :
    ExifTsInput → Except (List Char) ℕ
  | .missing => .error ("missing value".toList)
  | .dateObj none => .error ("Date object is invalid".toList)
  | .dateObj (some t) => .ok t
  | .str raw =>
    let s := trimList raw
    match exifTsMatch s with
    | some iso =>
      match jsDate iso with
      | some t => .ok t
      | none => .error ("could not parse ISO produced from EXIF".toList)
    | none =>
      match jsDate s with
      | some t => .ok t
      | none => .error ("unrecognized timestamp format".toList)

/-! ## The verification outcome (src/controllers/cloudinary.controller.ts) -/

inductive VerificationStatus
  | VERIFIED
  | FLAGGED
deriving DecidableEq, Repr

/-- Lines 271-274: `distanceMeters <= tolerance ? "VERIFIED" : "FLAGGED"`. -/
def verificationOutcome (distanceMeters toleranceMeters : ℚ) : VerificationStatus :=
  if distanceMeters ≤ toleranceMeters then .VERIFIED else .FLAGGED

/-- The default of `process.env.VERIFICATION_TOLERANCE_METERS ?? "50"`. -/
def defaultToleranceMeters : ℚ := 50

/-- The EXIF fields `completeHandler` reads from the storage metadata:
`exif.GPSLatitude`, `exif.GPSLongitude`, `exif.DateTimeOriginal`,
`exif.DateTime` (each possibly absent). -/
structure ExifData where
  gpsLatitude : Option (List Char)
  gpsLongitude : Option (List Char)
  dateTimeOriginal : Option (List Char)
  dateTime : Option (List Char)

/-- Embeds `timeRaw = exif.DateTimeOriginal ?? exif["DateTimeOriginal"] ?? exif.DateTime
?? null` (line 230), packaged for `normalizeExifTimestamp`. -/
def timeRawOf (e : ExifData) : ExifTsInput :=
  match e.dateTimeOriginal.orElse (fun _ => e.dateTime) with
  | none => .missing
  | some s => .str s

/-- Result of the EXIF-verification stage of `completeHandler`: a
BAD_REQUEST-class rejection (no image/verification row is written on this
path — every `return sendJson(res, 400, ...)` happens before
`createImageRecordRaw` and before the verification-columns update), or a
completed verification outcome with its distance. -/
inductive CompleteOutcome
  | badRequest (message : List Char)
  | completed (verification : VerificationStatus) (distanceMeters : ℚ)
deriving DecidableEq, Repr

/-- The verification outcome recorded on the images table by the completed
path (lines 362-372); a rejected upload records none. -/
def recordedVerification : CompleteOutcome → Option VerificationStatus
  | .badRequest _ => none
  | .completed v _ => some v

/-- The EXIF-verification stage of `completeHandler` (lines 214-296):
missing EXIF, unparseable EXIF GPS, or an unparseable EXIF timestamp each
reject with a 400; otherwise the haversine distance between the
device-reported position and the EXIF position is compared against the
tolerance.  `haversineDistanceMeters` stands for the source's
floating-point haversine (src/services/cloudinary.service.ts lines
114-122), whose transcendental evaluation is taken as a parameter; no farm
boundary or point-in-polygon input occurs anywhere in this stage. -/
def completeHandler (haversineDistanceMeters : ℚ → ℚ → ℚ → ℚ → ℚ)
    (jsDate : List Char → Option ℕ) (exif : Option ExifData)
    (deviceLat deviceLon tolerance : ℚ) : CompleteOutcome :=
  match exif with
  | none => .badRequest ("EXIF missing — upload rejected".toList)
  | some e =>
    match parseExifGps e.gpsLatitude, parseExifGps e.gpsLongitude with
    | some exifLat, some exifLon =>
      match normalizeExifTimestamp jsDate (timeRawOf e) with
      | .error _ => .badRequest ("EXIF timestamp invalid".toList)
      | .ok _ =>
        let distanceMeters :=
          haversineDistanceMeters deviceLat deviceLon exifLat exifLon
        .completed (verificationOutcome distanceMeters tolerance) distanceMeters
    | _, _ => .badRequest ("EXIF GPS missing — upload rejected".toList)

/-- Modelled from the spec: the point-in-polygon containment check of the
"boundary containment veto" (§4.4), specialised to an axis-aligned
rectangular farm boundary.  The source delegates containment to the
external spatial database (`ST_Contains`, wrapped by `isPointInPolygon` in
src/utils/geospatial.ts), and `completeHandler` never invokes it. -/
def pointInRectBoundary (minLat maxLat minLon maxLon lat lon : ℚ) : Bool :=
  (minLat ≤ lat && lat ≤ maxLat) && (minLon ≤ lon && lon ≤ maxLon)

/-! ## Block linker (completeHandler transaction, lines 377-531)

The `sampling_session_blocks` table is embedded as an association list keyed
by block id.  The join conditions of the spatial candidate query that depend
on the current call — `ss.status = 'ACTIVE'`, `ST_Contains(gb.geom, device
point)` and the optional `ss.user_id` filter — are abstracted into one
per-block `eligible` predicate; the `image_id IS NULL` conditions stay in
the store.  The transaction runs serializably, so its sequential execution
is embedded; the `explicit_link_error` / `spatial_link_error` codes of the
exception paths do not arise in the exception-free embedding, and `FOR
UPDATE SKIP LOCKED` is a no-op for a single transaction. -/

inductive BlockStatus
  | PENDING
  | COMPLETED
  | FAILED
  | FLAGGED
deriving DecidableEq, Repr

structure SessionBlock where
  imageId : Option ℕ
  status : BlockStatus
  attempts : ℕ
deriving DecidableEq, Repr

/-- The result codes `completeHandler` can leave in `responseCode`
(excluding the two exception-path codes). -/
inductive LinkCode
  | not_linked
  | linked_and_verified
  | linked_but_flagged
  | explicit_block_already_taken
  | spatial_conflict
  | spatial_no_match
deriving DecidableEq, Repr

abbrev Store := List (ℕ × SessionBlock)

def lookupBlock : Store → ℕ → Option SessionBlock
  | [], _ => none
  | (j, b) :: rest, i => if i = j then some b else lookupBlock rest i

def writeBlock : Store → ℕ → SessionBlock → Store
  | [], _, _ => []
  | (j, b0) :: rest, i, b =>
    if i = j then (j, b) :: rest else (j, b0) :: writeBlock rest i b

/-- The conditional claim `UPDATE sampling_session_blocks SET image_id = ...,
attempts = attempts + 1, status = blockStatus, completed_at = now() WHERE id
= i AND image_id IS NULL RETURNING id, attempts` (lines 398-412 and
476-490): returns the updated store and, on success, the new `attempts`
value; zero rows affected leaves the store unchanged. -/
def claimUpdate (st : Store) (i imgId : ℕ) (blockStatus : BlockStatus) :
    Store × Option ℕ :=
  match lookupBlock st i with
  | some b =>
    match b.imageId with
    | none =>
      (writeBlock st i ⟨some imgId, blockStatus, b.attempts + 1⟩,
       some (b.attempts + 1))
    | some _ => (st, none)
  | none => (st, none)

/-- Embeds `UPDATE sampling_session_blocks SET status = 'FAILED' WHERE id = i`
(lines 421 and 498). -/
def setStatusFailed (st : Store) (i : ℕ) : Store :=
  match lookupBlock st i with
  | some b => writeBlock st i ⟨b.imageId, .FAILED, b.attempts⟩
  | none => st

/-- The attempts cap (lines 420-422 and 497-499): once the returned
`attempts` value reaches 4, the just-linked block is forced to FAILED. -/
def applyAttemptsCap (st : Store) (i newAttempts : ℕ) : Store :=
  if 4 ≤ newAttempts then setStatusFailed st i else st

/-- The spatial candidate selection (lines 455-468): the first block that is
eligible (active session, geometry containing the device point, user
filter) and still unlinked. -/
def spatialSelect : Store → (ℕ → Bool) → Option ℕ
  | [], _ => none
  | (j, b) :: rest, eligible =>
    if eligible j && b.imageId.isNone then some j
    else spatialSelect rest eligible

/-- Step 2 of the transaction, the spatial fallback (lines 452-530).  Every
branch assigns `responseCode`, so whatever code step 1 left is overwritten
here. -/
def spatialPhase (st : Store) (eligible : ℕ → Bool) (imgId : ℕ)
    (verified : Bool) : Store × Option ℕ × LinkCode :=
  let blockStatus := if verified then BlockStatus.COMPLETED else BlockStatus.FLAGGED
  match spatialSelect st eligible with
  | some candidateId =>
    let r := claimUpdate st candidateId imgId blockStatus
    match r.2 with
    | some newAttempts =>
      (applyAttemptsCap r.1 candidateId newAttempts, some candidateId,
       if verified then .linked_and_verified else .linked_but_flagged)
    | none => (r.1, none, .spatial_conflict)
  | none => (st, none, .spatial_no_match)

/-- The linking transaction of `completeHandler` (lines 389-531), the
spec's `linkImageToSession`.  Step 1 tries the explicit block when one was
supplied: on success it applies the attempts cap and returns; when the
conditional update hits zero rows, `responseCode` is set to
`explicit_block_already_taken` and control continues into the spatial
fallback (which reassigns the code in every branch). -/
def linkImageToSession (st : Store) (explicitBlockId : Option ℕ)
    (eligible : ℕ → Bool) (imgId : ℕ) (verified : Bool) :
    Store × Option ℕ × LinkCode :=
  let blockStatus := if verified then BlockStatus.COMPLETED else BlockStatus.FLAGGED
  match explicitBlockId with
  | some eid =>
    let r := claimUpdate st eid imgId blockStatus
    match r.2 with
    | some newAttempts =>
      (applyAttemptsCap r.1 eid newAttempts, some eid,
       if verified then .linked_and_verified else .linked_but_flagged)
    | none => spatialPhase r.1 eligible imgId verified
  | none => spatialPhase st eligible imgId verified

/-- Session-block rows as created at session start
(src/services/sampling.service.ts lines 101-112): status 'PENDING', no
image, zero attempts. -/
def newSessionBlocks (ids : List ℕ) : Store :=
  ids.map (fun i => (i, ⟨none, .PENDING, 0⟩))

/-- The invariant claimed by the spec for a single block:
`imageId != null ⇒ status ∈ {COMPLETED, FLAGGED}`. -/
def SpecBlockInvariant (b : SessionBlock) : Prop :=
  b.imageId ≠ none → b.status = .COMPLETED ∨ b.status = .FLAGGED

/-- The invariant the code actually maintains: a linked block is COMPLETED
or FLAGGED, or has been forced to FAILED by the attempts cap (which only
fires at `attempts ≥ 4`). -/
def BlockInvariant (b : SessionBlock) : Prop :=
  b.imageId ≠ none →
    b.status = .COMPLETED ∨ b.status = .FLAGGED ∨
      (b.status = .FAILED ∧ 4 ≤ b.attempts)

instance (b : SessionBlock) : Decidable (BlockInvariant b) := by
  unfold BlockInvariant; infer_instance

def StoreInvariant (st : Store) : Prop :=
  ∀ i b, lookupBlock st i = some b → BlockInvariant b

/-! ## Session submit (src/controllers/weekly.controller.ts, lines 93-141) -/

inductive SessionStatus
  | ACTIVE
  | COMPLETED
  | CANCELLED
deriving DecidableEq, Repr

structure SamplingSession where
  status : SessionStatus
  sessionBlocks : List SessionBlock
deriving DecidableEq, Repr

inductive SubmitResult
  | sessionNotActive (current : SessionStatus)
  | noCompletedBlocks
  | submitted (imageIds : List ℕ)
deriving DecidableEq, Repr

/-- Embeds `session.sessionBlocks.filter(b => b.status === 'COMPLETED' && b.imageId)`
(line 113). -/
def completedBlocks (blocks : List SessionBlock) : List SessionBlock :=
  blocks.filter (fun b => b.status == BlockStatus.COMPLETED && b.imageId.isSome)

/-- Embeds `submitSessionHandler`: reject when the session is not ACTIVE (line
108), reject when no block is COMPLETED with an image (lines 113-117) —
both rejections throw before any write, leaving the session unchanged —
otherwise hand the completed blocks' image ids to the report step and mark
the session COMPLETED (lines 119-141). -/
def submitSessionHandler (s : SamplingSession) : SubmitResult × SamplingSession :=
  if s.status ≠ .ACTIVE then (.sessionNotActive s.status, s)
  else
    let comp := completedBlocks s.sessionBlocks
    if comp.isEmpty then (.noCompletedBlocks, s)
    else
      (.submitted (comp.filterMap (fun b => b.imageId)),
       ⟨.COMPLETED, s.sessionBlocks⟩)

/-! ## Sampling service (src/services/sampling.service.ts)

The grid store is an association list of (farmId, gridBlockId); the
PostGIS `ST_SquareGrid`/`ST_Intersection` tessellation is deterministic in
the farm row and resolution and appears as the `tessellate` parameter, and
`ORDER BY random()` as the `shuffle` parameter. -/

abbrev GridStore := List (ℕ × ℕ)

/-- Embeds `prisma.gridBlock.count({ where: { farmId } })`. -/
def countGridBlocks (st : GridStore) (farmId : ℕ) : ℕ :=
  (st.filter (fun p => p.1 == farmId)).length

/-- The grid blocks of a farm, in store order. -/
def gridBlocksOf (st : GridStore) (farmId : ℕ) : List ℕ :=
  (st.filter (fun p => p.1 == farmId)).map (fun p => p.2)

/-- Embeds `ensureFarmGrid(farmId, resolutionM)` (lines 14-50): a no-op when the
farm already has grid blocks, otherwise one atomic insert of the
tessellation of the farm boundary. -/
def ensureFarmGrid (tessellate : ℕ → ℕ → List ℕ) (st : GridStore)
    (farmId resolutionM : ℕ) : GridStore :=
  if 0 < countGridBlocks st farmId then st
  else st ++ (tessellate farmId resolutionM).map (fun c => (farmId, c))

/-- Embeds `selectSessionBlocks(farmId, count)` (lines 55-69): `ORDER BY random()
LIMIT count`. -/
def selectSessionBlocks (shuffle : List ℕ → List ℕ) (st : GridStore)
    (farmId cnt : ℕ) : List ℕ :=
  (shuffle (gridBlocksOf st farmId)).take cnt

inductive StartSessionResult
  | emptyGridError
  | started (blocks : List ℕ)
deriving DecidableEq, Repr

/-- Embeds `createSamplingSession(userId, farmId, resolutionM)` (lines 74-120):
ensure the grid, select 4 blocks, throw before creating anything when the
selection is empty, otherwise create the session with its blocks in one
transaction.  The session store records each created session as its list
of grid-block ids (in `order_index` order). -/
def createSamplingSession (tessellate : ℕ → ℕ → List ℕ)
    (shuffle : List ℕ → List ℕ) (st : GridStore) (sessions : List (List ℕ))
    (farmId resolutionM : ℕ) :
    GridStore × List (List ℕ) × StartSessionResult :=
  let st1 := ensureFarmGrid tessellate st farmId resolutionM
  let blocks := selectSessionBlocks shuffle st1 farmId 4
  if blocks.isEmpty then (st1, sessions, .emptyGridError)
  else (st1, sessions ++ [blocks], .started blocks)

/-! ## Helper lemmas -/

theorem takeWhile_append_of_all {p : Char → Bool} :
    ∀ {a b : List Char}, (∀ c ∈ a, p c = true) →
      (a ++ b).takeWhile p = a ++ b.takeWhile p := by
  intro a
  induction a with
  | nil => intro b _; rfl
  | cons c t ih =>
    intro b h
    have hc : p c = true := h c (List.mem_cons_self c t)
    simp only [List.cons_append, List.takeWhile_cons, hc, if_true]
    rw [ih (fun x hx => h x (List.mem_cons_of_mem c hx))]

theorem dropWhile_append_of_all {p : Char → Bool} :
    ∀ {a b : List Char}, (∀ c ∈ a, p c = true) →
      (a ++ b).dropWhile p = b.dropWhile p := by
  intro a
  induction a with
  | nil => intro b _; rfl
  | cons c t ih =>
    intro b h
    have hc : p c = true := h c (List.mem_cons_self c t)
    simp only [List.cons_append, List.dropWhile_cons, hc, if_true]
    exact ih (fun x hx => h x (List.mem_cons_of_mem c hx))

theorem takeWhile_eq_self_of_all {p : Char → Bool} {l : List Char}
    (h : ∀ c ∈ l, p c = true) : l.takeWhile p = l := by
  have := takeWhile_append_of_all (b := []) h
  simpa using this

theorem dropWhile_eq_nil_of_all {p : Char → Bool} {l : List Char}
    (h : ∀ c ∈ l, p c = true) : l.dropWhile p = [] := by
  have := dropWhile_append_of_all (b := []) h
  simpa using this

theorem dropWhile_eq_self_of_all_false {p : Char → Bool} {l : List Char}
    (h : ∀ c ∈ l, p c = false) : l.dropWhile p = l := by
  cases l with
  | nil => rfl
  | cons c t =>
    have hc : p c = false := h c (List.mem_cons_self c t)
    simp [List.dropWhile_cons, hc]

theorem trimList_eq_self_of_no_space {l : List Char}
    (h : ∀ c ∈ l, isJsSpace c = false) : trimList l = l := by
  unfold trimList
  rw [dropWhile_eq_self_of_all_false h,
    dropWhile_eq_self_of_all_false (fun c hc => h c (List.mem_reverse.mp hc)),
    List.reverse_reverse]

theorem digit_ne {c k : Char} (h : c.isDigit = true) (hk : k.isDigit = false) :
    c ≠ k := by
  rintro rfl
  rw [h] at hk
  exact Bool.noConfusion hk

theorem isJsSpace_eq_false_of_digit {c : Char} (h : c.isDigit = true) :
    isJsSpace c = false := by
  have h1 : c ≠ ' ' := digit_ne h (by decide)
  have h2 : c ≠ '\t' := digit_ne h (by decide)
  have h3 : c ≠ '\n' := digit_ne h (by decide)
  have h4 : c ≠ '\r' := digit_ne h (by decide)
  have h5 : c ≠ '\x0b' := digit_ne h (by decide)
  have h6 : c ≠ '\x0c' := digit_ne h (by decide)
  simp [isJsSpace, h1, h2, h3, h4, h5, h6]

theorem contains_of_mem {c : Char} {l : List Char} (h : c ∈ l) :
    l.contains c = true := by
  simpa [List.contains] using List.elem_iff.mpr h

/-! ## C8: grid idempotency -/

theorem countGridBlocks_append (st extra : GridStore) (f : ℕ) :
    countGridBlocks (st ++ extra) f = countGridBlocks st f + countGridBlocks extra f := by
  simp [countGridBlocks, List.filter_append]

theorem countGridBlocks_map_self (cells : List ℕ) (f : ℕ) :
    countGridBlocks (cells.map (fun c => (f, c))) f = cells.length := by
  induction cells with
  | nil => rfl
  | cons c t ih => simp [countGridBlocks, List.filter] at ih ⊢; omega

/-- C8: `ensureGrid` is idempotent — after a completed first call, a second
call with the same farm and resolution is a no-op and the stored set of grid
blocks is exactly that of the single call.  (`ensureFarmGrid`,
src/services/sampling.service.ts lines 14-50: the insert only runs when the
farm has zero blocks.) -/
theorem ensureFarmGrid_idempotent (tessellate : ℕ → ℕ → List ℕ)
    (st : GridStore) (f r : ℕ) :
    ensureFarmGrid tessellate (ensureFarmGrid tessellate st f r) f r =
      ensureFarmGrid tessellate st f r := by
  unfold ensureFarmGrid
  by_cases h : 0 < countGridBlocks st f
  · simp [h]
  · simp only [h, if_false, if_neg h]
    by_cases hc : (tessellate f r).length = 0
    · rw [List.length_eq_zero] at hc
      simp [hc, countGridBlocks_append, h]
    · have hpos : 0 < countGridBlocks
          (st ++ (tessellate f r).map (fun c => (f, c))) f := by
        rw [countGridBlocks_append, countGridBlocks_map_self]
        omega
      simp [hpos]

/-! ## C7: session submit preconditions -/

/-- C7: `submitSessionHandler` rejects (throwing before any write, so the
session is unchanged) when the session is not ACTIVE or when no block is
COMPLETED with a non-null imageId; with at least one such block it marks the
session COMPLETED and hands the completed blocks' image ids to the report
step (src/controllers/weekly.controller.ts lines 104-141). -/
theorem submitSessionHandler_spec (s : SamplingSession) :
    (s.status ≠ .ACTIVE →
      submitSessionHandler s = (.sessionNotActive s.status, s)) ∧
    (s.status = .ACTIVE → completedBlocks s.sessionBlocks = [] →
      submitSessionHandler s = (.noCompletedBlocks, s)) ∧
    (s.status = .ACTIVE → completedBlocks s.sessionBlocks ≠ [] →
      submitSessionHandler s =
        (.submitted ((completedBlocks s.sessionBlocks).filterMap
            (fun b => b.imageId)),
         ⟨.COMPLETED, s.sessionBlocks⟩)) := by
  refine ⟨fun h => ?_, fun h1 h2 => ?_, fun h1 h2 => ?_⟩
  · simp [submitSessionHandler, h]
  · simp [submitSessionHandler, h1, h2]
  · simp [submitSessionHandler, h1, List.isEmpty_iff, h2]

theorem submitSessionHandler_spec_witness :
    submitSessionHandler
        ⟨.ACTIVE, [⟨some 3, .COMPLETED, 1⟩, ⟨none, .PENDING, 0⟩]⟩ =
      (.submitted [3],
       ⟨.COMPLETED, [⟨some 3, .COMPLETED, 1⟩, ⟨none, .PENDING, 0⟩]⟩) := by
  have h := (submitSessionHandler_spec
    ⟨.ACTIVE, [⟨some 3, .COMPLETED, 1⟩, ⟨none, .PENDING, 0⟩]⟩).2.2
    rfl (by decide)
  exact h

/-! ## C9: session start with a small or empty grid -/

/-- C9: at session start, a farm whose grid has between 1 and 4 cells gets a
session containing all available cells (never a failure), while a farm with
zero grid cells fails with the empty-grid error and creates no session and
no session blocks (`selectSessionBlocks` and `createSamplingSession`,
src/services/sampling.service.ts lines 55-120).  `ORDER BY random()` is the
`shuffle` parameter, constrained to be a permutation. -/
theorem createSamplingSession_small_grid (tessellate : ℕ → ℕ → List ℕ)
    (shuffle : List ℕ → List ℕ) (st : GridStore) (sessions : List (List ℕ))
    (f r : ℕ)
    (hperm : (shuffle (gridBlocksOf (ensureFarmGrid tessellate st f r) f)).Perm
      (gridBlocksOf (ensureFarmGrid tessellate st f r) f)) :
    (gridBlocksOf (ensureFarmGrid tessellate st f r) f = [] →
      createSamplingSession tessellate shuffle st sessions f r =
        (ensureFarmGrid tessellate st f r, sessions, .emptyGridError)) ∧
    (gridBlocksOf (ensureFarmGrid tessellate st f r) f ≠ [] →
      (gridBlocksOf (ensureFarmGrid tessellate st f r) f).length ≤ 4 →
      ∃ bs, createSamplingSession tessellate shuffle st sessions f r =
          (ensureFarmGrid tessellate st f r, sessions ++ [bs], .started bs) ∧
        bs.Perm (gridBlocksOf (ensureFarmGrid tessellate st f r) f)) := by
  constructor
  · intro hnil
    have hsh : shuffle (gridBlocksOf (ensureFarmGrid tessellate st f r) f) = [] := by
      rw [hnil] at hperm ⊢
      exact List.Perm.eq_nil hperm
    simp [createSamplingSession, selectSessionBlocks, hsh]
  · intro hne hle
    have hlen : (shuffle (gridBlocksOf (ensureFarmGrid tessellate st f r) f)).length =
        (gridBlocksOf (ensureFarmGrid tessellate st f r) f).length :=
      hperm.length_eq
    have htake : (shuffle (gridBlocksOf (ensureFarmGrid tessellate st f r) f)).take 4 =
        shuffle (gridBlocksOf (ensureFarmGrid tessellate st f r) f) :=
      List.take_of_length_le (by omega)
    have hshne : shuffle (gridBlocksOf (ensureFarmGrid tessellate st f r) f) ≠ [] := by
      intro h0
      rw [h0] at hperm
      exact hne (List.Perm.eq_nil hperm.symm)
    refine ⟨shuffle (gridBlocksOf (ensureFarmGrid tessellate st f r) f), ?_, hperm⟩
    simp [createSamplingSession, selectSessionBlocks, htake,
      List.isEmpty_iff, hshne]

theorem createSamplingSession_small_grid_witness :
    (createSamplingSession (fun _ _ => []) id [] [] 1 50 =
      ([], [], .emptyGridError)) ∧
    (∃ bs, createSamplingSession (fun _ _ => [10, 20]) id [] [] 1 50 =
        ([(1, 10), (1, 20)], [bs], .started bs) ∧ bs.Perm [10, 20]) := by
  constructor
  · exact (createSamplingSession_small_grid (fun _ _ => []) id [] [] 1 50
      (List.Perm.refl _)).1 rfl
  · obtain ⟨bs, heq, hp⟩ := (createSamplingSession_small_grid
      (fun _ _ => [10, 20]) id [] [] 1 50 (List.Perm.refl _)).2
      (by decide) (by decide)
    exact ⟨bs, heq, hp⟩

/-! ## Store lemmas for the block linker -/

theorem lookupBlock_writeBlock_self :
    ∀ {st : Store} {i : ℕ} {b0 : SessionBlock} (b : SessionBlock),
      lookupBlock st i = some b0 → lookupBlock (writeBlock st i b) i = some b := by
  intro st
  induction st with
  | nil => intro i b0 b h; cases h
  | cons p t ih =>
    intro i b0 b h
    obtain ⟨j, bj⟩ := p
    by_cases hij : i = j
    · simp [writeBlock, lookupBlock, hij]
    · simp only [writeBlock, lookupBlock, if_neg hij,
        if_neg (fun he : i = j => hij he)] at h ⊢
      exact ih b h

theorem lookupBlock_writeBlock_ne :
    ∀ {st : Store} {i j : ℕ} (b : SessionBlock), i ≠ j →
      lookupBlock (writeBlock st j b) i = lookupBlock st i := by
  intro st
  induction st with
  | nil => intro i j b _; rfl
  | cons p t ih =>
    intro i j b hij
    obtain ⟨k, bk⟩ := p
    by_cases hjk : j = k
    · subst hjk
      simp [writeBlock, lookupBlock, if_neg hij]
    · simp only [writeBlock, if_neg hjk, lookupBlock]
      by_cases hik : i = k
      · simp [hik]
      · simp only [if_neg hik]
        exact ih b hij

theorem lookupBlock_mem :
    ∀ {st : Store} {i : ℕ} {b : SessionBlock},
      lookupBlock st i = some b → (i, b) ∈ st := by
  intro st
  induction st with
  | nil => intro i b h; cases h
  | cons p t ih =>
    intro i b h
    obtain ⟨j, bj⟩ := p
    by_cases hij : i = j
    · subst hij
      simp only [lookupBlock, if_pos rfl] at h
      injection h with h
      subst h
      exact List.mem_cons_self _ _
    · simp only [lookupBlock, if_neg hij] at h
      exact List.mem_cons_of_mem _ (ih h)

theorem storeInvariant_of_forall {st : Store}
    (h : ∀ p ∈ st, BlockInvariant p.2) : StoreInvariant st :=
  fun i b hl => h (i, b) (lookupBlock_mem hl)

theorem claimUpdate_fst_of_none {st : Store} {i imgId : ℕ} {bs : BlockStatus}
    (h : (claimUpdate st i imgId bs).2 = none) :
    (claimUpdate st i imgId bs).1 = st := by
  unfold claimUpdate at h ⊢
  cases hl : lookupBlock st i with
  | none => simp [hl]
  | some b =>
    cases him : b.imageId with
    | none => simp [hl, him] at h
    | some x => simp [hl, him]

theorem claimUpdate_some_of {st : Store} {i imgId a : ℕ} {bs : BlockStatus}
    (h : (claimUpdate st i imgId bs).2 = some a) :
    ∃ b0, lookupBlock st i = some b0 ∧ b0.imageId = none ∧
      a = b0.attempts + 1 ∧
      (claimUpdate st i imgId bs).1 = writeBlock st i ⟨some imgId, bs, a⟩ := by
  unfold claimUpdate at h ⊢
  cases hl : lookupBlock st i with
  | none => simp [hl] at h
  | some b =>
    cases him : b.imageId with
    | some x => simp [hl, him] at h
    | none =>
      simp only [hl, him] at h ⊢
      injection h with h
      exact ⟨b, rfl, him, h.symm, by rw [h]⟩

theorem lookupBlock_setStatusFailed_self {st : Store} {i : ℕ} {b : SessionBlock}
    (h : lookupBlock st i = some b) :
    lookupBlock (setStatusFailed st i) i = some ⟨b.imageId, .FAILED, b.attempts⟩ := by
  unfold setStatusFailed
  rw [h]
  exact lookupBlock_writeBlock_self _ h

theorem lookupBlock_setStatusFailed_ne {st : Store} {i j : ℕ} (h : i ≠ j) :
    lookupBlock (setStatusFailed st j) i = lookupBlock st i := by
  unfold setStatusFailed
  cases hl : lookupBlock st j with
  | none => rfl
  | some b => exact lookupBlock_writeBlock_ne _ h

theorem linkStep_lookup_ne {st : Store} {i imgId a : ℕ} {bs : BlockStatus}
    (h : (claimUpdate st i imgId bs).2 = some a) {j : ℕ} (hne : j ≠ i) :
    lookupBlock (applyAttemptsCap (claimUpdate st i imgId bs).1 i a) j =
      lookupBlock st j := by
  obtain ⟨b0, hl, him, ha, hfst⟩ := claimUpdate_some_of h
  unfold applyAttemptsCap
  by_cases hc : 4 ≤ a
  · rw [if_pos hc, lookupBlock_setStatusFailed_ne hne, hfst,
      lookupBlock_writeBlock_ne _ hne]
  · rw [if_neg hc, hfst, lookupBlock_writeBlock_ne _ hne]

theorem linkStep_lookup_self {st : Store} {i imgId a : ℕ} {bs : BlockStatus}
    (h : (claimUpdate st i imgId bs).2 = some a) :
    lookupBlock (applyAttemptsCap (claimUpdate st i imgId bs).1 i a) i =
      some ⟨some imgId, if 4 ≤ a then .FAILED else bs, a⟩ := by
  obtain ⟨b0, hl, him, ha, hfst⟩ := claimUpdate_some_of h
  have hw : lookupBlock (claimUpdate st i imgId bs).1 i = some ⟨some imgId, bs, a⟩ := by
    rw [hfst]
    exact lookupBlock_writeBlock_self _ hl
  unfold applyAttemptsCap
  by_cases hc : 4 ≤ a
  · rw [if_pos hc, lookupBlock_setStatusFailed_self hw, if_pos hc]
  · rw [if_neg hc, hw, if_neg hc]

theorem spatialPhase_fst_preserves {st : Store} {elig : ℕ → Bool}
    {imgId : ℕ} {v : Bool} {i : ℕ} {b : SessionBlock}
    (hl : lookupBlock st i = some b) (him : b.imageId ≠ none) :
    lookupBlock (spatialPhase st elig imgId v).1 i = some b ∧
    (spatialPhase st elig imgId v).2.1 ≠ some i := by
  unfold spatialPhase
  cases hsel : spatialSelect st elig with
  | none => simp [hl]
  | some cid =>
    cases hcl : (claimUpdate st cid imgId
        (if v then BlockStatus.COMPLETED else BlockStatus.FLAGGED)).2 with
    | none =>
      simp only [hsel, hcl]
      simp [claimUpdate_fst_of_none hcl, hl]
    | some a =>
      obtain ⟨b0, hl0, him0, _, _⟩ := claimUpdate_some_of hcl
      have hne : i ≠ cid := by
        rintro rfl
        rw [hl] at hl0
        injection hl0 with he
        rw [← he] at him0
        exact him him0
      simp only [hsel, hcl]
      constructor
      · rw [linkStep_lookup_ne hcl hne]
        exact hl
      · simp only [ne_eq, Option.some.injEq]
        exact fun he => hne he.symm

theorem inv_after_claim_cap {st : Store} {i imgId a : ℕ} {v : Bool}
    (hinv : StoreInvariant st)
    (hcl : (claimUpdate st i imgId
      (if v then BlockStatus.COMPLETED else BlockStatus.FLAGGED)).2 = some a) :
    StoreInvariant (applyAttemptsCap (claimUpdate st i imgId
      (if v then BlockStatus.COMPLETED else BlockStatus.FLAGGED)).1 i a) := by
  intro j bj hj
  by_cases hji : j = i
  · subst hji
    rw [linkStep_lookup_self hcl] at hj
    injection hj with hj
    subst hj
    intro _
    by_cases hc : 4 ≤ a
    · exact Or.inr (Or.inr ⟨by simp [hc], by simpa using hc⟩)
    · cases v
      · exact Or.inr (Or.inl (by simp [hc]))
      · exact Or.inl (by simp [hc])
  · rw [linkStep_lookup_ne hcl hji] at hj
    exact hinv j bj hj

theorem spatialPhase_preserves_inv {st : Store} {elig : ℕ → Bool}
    {imgId : ℕ} {v : Bool} (hinv : StoreInvariant st) :
    StoreInvariant (spatialPhase st elig imgId v).1 := by
  unfold spatialPhase
  cases hsel : spatialSelect st elig with
  | none => simpa using hinv
  | some cid =>
    cases hcl : (claimUpdate st cid imgId
        (if v then BlockStatus.COMPLETED else BlockStatus.FLAGGED)).2 with
    | none =>
      simp only [hsel, hcl]
      simpa [claimUpdate_fst_of_none hcl] using hinv
    | some a =>
      simp only [hsel, hcl]
      exact inv_after_claim_cap hinv hcl

theorem lookupBlock_append_cases :
    ∀ {a b : Store} {i : ℕ} {x : SessionBlock},
      lookupBlock (a ++ b) i = some x →
      lookupBlock a i = some x ∨ lookupBlock b i = some x := by
  intro a
  induction a with
  | nil => intro b i x h; exact Or.inr h
  | cons p t ih =>
    intro b i x h
    obtain ⟨j, bj⟩ := p
    by_cases hij : i = j
    · subst hij
      simp only [List.cons_append, lookupBlock, if_pos rfl] at h ⊢
      exact Or.inl h
    · simp only [List.cons_append, lookupBlock, if_neg hij] at h ⊢
      exact ih h

theorem lookupBlock_newSessionBlocks :
    ∀ {ids : List ℕ} {i : ℕ} {b : SessionBlock},
      lookupBlock (newSessionBlocks ids) i = some b →
      b = ⟨none, .PENDING, 0⟩ := by
  intro ids
  induction ids with
  | nil => intro i b h; cases h
  | cons j t ih =>
    intro i b h
    by_cases hij : i = j
    · subst hij
      simp only [newSessionBlocks, List.map, lookupBlock, if_pos rfl] at h
      injection h with h
      exact h.symm
    · simp only [newSessionBlocks, List.map, lookupBlock, if_neg hij] at h
      exact ih h

/-! ## C1: at-most-one image per block -/

/-- C1 (counterexample to the claim as stated): with block 1 already linked
to image 5 and block 2 open and spatially eligible, a second link attempt
that explicitly targets block 1 does not receive a conflict code — it falls
through to the spatial fallback, links block 2, and returns
`linked_and_verified` — although block 1's `imageId` is indeed left
untouched. -/
theorem linkImageToSession_losing_attempt_not_conflict :
    (linkImageToSession
        [(1, ⟨some 5, .COMPLETED, 1⟩), (2, ⟨none, .PENDING, 0⟩)]
        (some 1) (fun _ => true) 7 true).2.2 = .linked_and_verified ∧
    (linkImageToSession
        [(1, ⟨some 5, .COMPLETED, 1⟩), (2, ⟨none, .PENDING, 0⟩)]
        (some 1) (fun _ => true) 7 true).2.1 = some 2 ∧
    lookupBlock (linkImageToSession
        [(1, ⟨some 5, .COMPLETED, 1⟩), (2, ⟨none, .PENDING, 0⟩)]
        (some 1) (fun _ => true) 7 true).1 1 = some ⟨some 5, .COMPLETED, 1⟩ := by
  decide

/-- C1 (amended): both linking updates are conditional on `image_id IS
NULL`, so a block whose `imageId` is non-null is never modified by any later
link operation and is never the block a later call links; the losing attempt
however reports a conflict code only when the spatial fallback does not
claim a different block. -/
theorem linkImageToSession_no_overwrite (st : Store) (eb : Option ℕ)
    (elig : ℕ → Bool) (imgId : ℕ) (v : Bool) (i : ℕ) (b : SessionBlock)
    (hl : lookupBlock st i = some b) (him : b.imageId ≠ none) :
    lookupBlock (linkImageToSession st eb elig imgId v).1 i = some b ∧
    (linkImageToSession st eb elig imgId v).2.1 ≠ some i := by
  cases eb with
  | none => exact spatialPhase_fst_preserves hl him
  | some eid =>
    cases hcl : (claimUpdate st eid imgId
        (if v then BlockStatus.COMPLETED else BlockStatus.FLAGGED)).2 with
    | none =>
      have h1 : linkImageToSession st (some eid) elig imgId v =
          spatialPhase (claimUpdate st eid imgId
            (if v then BlockStatus.COMPLETED else BlockStatus.FLAGGED)).1
            elig imgId v := by
        unfold linkImageToSession
        simp [hcl]
      rw [h1, claimUpdate_fst_of_none hcl]
      exact spatialPhase_fst_preserves hl him
    | some a =>
      have h1 : linkImageToSession st (some eid) elig imgId v =
          (applyAttemptsCap (claimUpdate st eid imgId
              (if v then BlockStatus.COMPLETED else BlockStatus.FLAGGED)).1 eid a,
           some eid,
           if v then LinkCode.linked_and_verified else LinkCode.linked_but_flagged) := by
        unfold linkImageToSession
        simp [hcl]
      obtain ⟨b0, hl0, him0, _, _⟩ := claimUpdate_some_of hcl
      have hne : i ≠ eid := by
        rintro rfl
        rw [hl] at hl0
        injection hl0 with he
        rw [← he] at him0
        exact him him0
      rw [h1]
      constructor
      · rw [linkStep_lookup_ne hcl hne]
        exact hl
      · simp only [ne_eq, Option.some.injEq]
        exact fun he => hne he.symm

theorem linkImageToSession_no_overwrite_witness :
    lookupBlock (linkImageToSession [(1, ⟨some 5, .COMPLETED, 1⟩)] none
        (fun _ => true) 7 true).1 1 = some ⟨some 5, .COMPLETED, 1⟩ ∧
    (linkImageToSession [(1, ⟨some 5, .COMPLETED, 1⟩)] none
        (fun _ => true) 7 true).2.1 ≠ some 1 :=
  linkImageToSession_no_overwrite [(1, ⟨some 5, .COMPLETED, 1⟩)] none
    (fun _ => true) 7 true 1 ⟨some 5, .COMPLETED, 1⟩ rfl (by decide)

/-! ## C4: failed explicit link falls through -/

/-- C4 (counterexample to the claim as stated): when the explicit
conditional update hits zero rows, the handler does fall through to the
spatial fallback: with block 1 taken and block 2 open and eligible, the call
links block 2 and returns `linked_and_verified`; with no eligible fallback
block the final code is `spatial_no_match`, not
`explicit_block_already_taken`. -/
theorem explicit_taken_falls_through :
    linkImageToSession [(1, ⟨some 5, .COMPLETED, 1⟩), (2, ⟨none, .PENDING, 0⟩)]
        (some 1) (fun j => j == 2) 7 true =
      ([(1, ⟨some 5, .COMPLETED, 1⟩), (2, ⟨some 7, .COMPLETED, 1⟩)],
       some 2, .linked_and_verified) ∧
    (linkImageToSession [(1, ⟨some 5, .COMPLETED, 1⟩)] (some 1)
        (fun _ => true) 7 true).2.2 = .spatial_no_match := by
  decide

/-- C4 (amended): when the explicit conditional update affects zero rows,
the call behaves exactly as the spatial fallback on the unchanged store —
`explicit_block_already_taken` is recorded transiently but every spatial
branch reassigns the code, so the reported code is never
`explicit_block_already_taken`; with fall-through a different block may get
linked. -/
theorem explicit_taken_behaves_as_spatial :
    (∀ (st : Store) (eid : ℕ) (elig : ℕ → Bool) (imgId : ℕ) (v : Bool)
      (b : SessionBlock), lookupBlock st eid = some b → b.imageId ≠ none →
      linkImageToSession st (some eid) elig imgId v =
        spatialPhase st elig imgId v) ∧
    (∀ (st : Store) (elig : ℕ → Bool) (imgId : ℕ) (v : Bool),
      (spatialPhase st elig imgId v).2.2 ≠ .explicit_block_already_taken) := by
  constructor
  · intro st eid elig imgId v b hl him
    have hcl : (claimUpdate st eid imgId
        (if v then BlockStatus.COMPLETED else BlockStatus.FLAGGED)).2 = none := by
      unfold claimUpdate
      rw [hl]
      cases hb : b.imageId with
      | none => exact absurd hb him
      | some x => simp [hb]
    have hfst := claimUpdate_fst_of_none hcl
    unfold linkImageToSession
    simp [hcl, hfst]
  · intro st elig imgId v
    unfold spatialPhase
    cases hsel : spatialSelect st elig with
    | none => simp
    | some cid =>
      cases hcl : (claimUpdate st cid imgId
          (if v then BlockStatus.COMPLETED else BlockStatus.FLAGGED)).2 with
      | none => simp [hsel, hcl]
      | some a =>
        simp only [hsel, hcl]
        cases v <;> simp

theorem explicit_taken_behaves_as_spatial_witness :
    linkImageToSession [(1, ⟨some 5, .COMPLETED, 1⟩)] (some 1)
        (fun _ => true) 7 true =
      spatialPhase [(1, ⟨some 5, .COMPLETED, 1⟩)] (fun _ => true) 7 true ∧
    (spatialPhase [(1, ⟨some 5, .COMPLETED, 1⟩)] (fun _ => true) 7
        true).2.2 ≠ .explicit_block_already_taken :=
  ⟨explicit_taken_behaves_as_spatial.1 [(1, ⟨some 5, .COMPLETED, 1⟩)] 1
      (fun _ => true) 7 true ⟨some 5, .COMPLETED, 1⟩ rfl (by decide),
   explicit_taken_behaves_as_spatial.2 [(1, ⟨some 5, .COMPLETED, 1⟩)]
      (fun _ => true) 7 true⟩

/-! ## C5: the linked-block status invariant -/

/-- C5 (counterexample to the claim as stated): a block with 3 prior
attempts that is successfully linked reaches `attempts = 4`, so the cap
fires and forces `status = FAILED` while `imageId` stays non-null — the
spec's invariant `imageId != null ⇒ status ∈ {COMPLETED, FLAGGED}` is
violated by the attempts-cap handling. -/
theorem attempts_cap_violates_spec_invariant :
    lookupBlock (linkImageToSession [(1, ⟨none, .PENDING, 3⟩)] (some 1)
        (fun _ => false) 7 true).1 1 = some ⟨some 7, .FAILED, 4⟩ ∧
    ¬ SpecBlockInvariant ⟨some 7, .FAILED, 4⟩ := by
  constructor
  · decide
  · intro h
    rcases h (by simp) with h1 | h1 <;> exact BlockStatus.noConfusion h1

/-- C5 (amended): every operation — session creation (PENDING blocks with
no image) and explicit/spatial linking including the attempts cap —
preserves the invariant that a block with a non-null `imageId` has status
COMPLETED or FLAGGED, or has been forced to FAILED by the attempts cap
(which only fires at `attempts ≥ 4`). -/
theorem linked_block_status_invariant :
    (∀ (st : Store) (eb : Option ℕ) (elig : ℕ → Bool) (imgId : ℕ) (v : Bool),
      StoreInvariant st →
      StoreInvariant (linkImageToSession st eb elig imgId v).1) ∧
    (∀ (st : Store) (ids : List ℕ), StoreInvariant st →
      StoreInvariant (st ++ newSessionBlocks ids)) := by
  constructor
  · intro st eb elig imgId v hinv
    cases eb with
    | none => exact spatialPhase_preserves_inv hinv
    | some eid =>
      cases hcl : (claimUpdate st eid imgId
          (if v then BlockStatus.COMPLETED else BlockStatus.FLAGGED)).2 with
      | none =>
        have h1 : linkImageToSession st (some eid) elig imgId v =
            spatialPhase (claimUpdate st eid imgId
              (if v then BlockStatus.COMPLETED else BlockStatus.FLAGGED)).1
              elig imgId v := by
          unfold linkImageToSession
          simp [hcl]
        rw [h1, claimUpdate_fst_of_none hcl]
        exact spatialPhase_preserves_inv hinv
      | some a =>
        have h1 : linkImageToSession st (some eid) elig imgId v =
            (applyAttemptsCap (claimUpdate st eid imgId
                (if v then BlockStatus.COMPLETED else BlockStatus.FLAGGED)).1 eid a,
             some eid,
             if v then LinkCode.linked_and_verified else LinkCode.linked_but_flagged) := by
          unfold linkImageToSession
          simp [hcl]
        rw [h1]
        exact inv_after_claim_cap hinv hcl
  · intro st ids hinv i b hl
    rcases lookupBlock_append_cases hl with h | h
    · exact hinv i b h
    · rw [lookupBlock_newSessionBlocks h]
      intro hne
      exact absurd rfl hne

theorem linked_block_status_invariant_witness :
    StoreInvariant (linkImageToSession [(1, ⟨none, .PENDING, 0⟩)] (some 1)
        (fun _ => true) 7 true).1 ∧
    StoreInvariant ([(1, ⟨none, .PENDING, 0⟩)] ++ newSessionBlocks [2, 3]) :=
  ⟨linked_block_status_invariant.1 [(1, ⟨none, .PENDING, 0⟩)] (some 1)
      (fun _ => true) 7 true (storeInvariant_of_forall (by decide)),
   linked_block_status_invariant.2 [(1, ⟨none, .PENDING, 0⟩)] [2, 3]
      (storeInvariant_of_forall (by decide))⟩

/-! ## C3: the verification threshold -/

/-- C3: the verification outcome computed by `completeHandler` is VERIFIED
iff the computed device/EXIF distance is at most the tolerance, and FLAGGED
otherwise; in particular, with the default 50 m tolerance a computed
distance of 10 m verifies and one of 200 m does not.  (The distance itself
is the output of the floating-point haversine of
src/services/cloudinary.service.ts lines 114-122, which enters the
comparison as a value.) -/
theorem verificationOutcome_iff_within_tolerance :
    (∀ d tol : ℚ, verificationOutcome d tol = .VERIFIED ↔ d ≤ tol) ∧
    (∀ d tol : ℚ, verificationOutcome d tol = .FLAGGED ↔ ¬ d ≤ tol) ∧
    verificationOutcome 10 defaultToleranceMeters = .VERIFIED ∧
    verificationOutcome 200 defaultToleranceMeters = .FLAGGED := by
  refine ⟨fun d tol => ?_, fun d tol => ?_, by decide, by decide⟩
  · unfold verificationOutcome
    split_ifs with h <;> simp [h]
  · unfold verificationOutcome
    split_ifs with h <;> simp [h]

/-! ## C2: no boundary-containment veto exists -/

/-- C2 (counterexample to the claim as stated): the device and EXIF
positions coincide at (10, 10), so the haversine distance is 0 (the
distance parameter is instantiated accordingly), the EXIF point lies
strictly outside the unit-square farm boundary, yet the verification stage
returns VERIFIED, not FLAGGED — `completeHandler` computes the status from
the distance alone and never consults the farm boundary. -/
theorem exif_outside_boundary_still_verified :
    pointInRectBoundary 0 1 0 1 10 10 = false ∧
    completeHandler (fun _ _ _ _ => 0) (fun _ => some 0)
        (some ⟨some ("10".toList), some ("10".toList),
          some ("2024:01:02 03:04:05".toList), none⟩)
        10 10 50 = .completed .VERIFIED 0 := by
  constructor
  · decide
  · decide

/-- C2 (amended): the verification status of `completeHandler` is a
function of the computed distance and the tolerance only — no
point-in-polygon check occurs — so whatever the containment verdict of the
farm boundary on the EXIF point, a distance within tolerance yields
VERIFIED (and never FLAGGED). -/
theorem verification_ignores_boundary (exifInsideBoundary : Bool)
    (d tol : ℚ) (h : d ≤ tol) :
    verificationOutcome d tol = .VERIFIED := by
  unfold verificationOutcome
  rw [if_pos h]

theorem verification_ignores_boundary_witness :
    verificationOutcome 0 50 = .VERIFIED :=
  verification_ignores_boundary false 0 50 (by norm_num)

/-! ## C6: missing or unparseable EXIF data is a hard rejection -/

/-- C6: whenever the EXIF block is absent, the EXIF GPS latitude or
longitude fails to parse, or the EXIF timestamp fails to normalize, the
completion pipeline returns a BAD_REQUEST-class rejection, and no
verification outcome is recorded for the photo (the rejection happens
before the image row and its verification columns are written). -/
theorem exif_failure_hard_rejects (hav : ℚ → ℚ → ℚ → ℚ → ℚ)
    (jsDate : List Char → Option ℕ) (exif : Option ExifData)
    (deviceLat deviceLon tolerance : ℚ)
    (hbad : exif = none ∨ ∃ e, exif = some e ∧
      (parseExifGps e.gpsLatitude = none ∨ parseExifGps e.gpsLongitude = none ∨
       ∃ msg, normalizeExifTimestamp jsDate (timeRawOf e) = .error msg)) :
    (∃ m, completeHandler hav jsDate exif deviceLat deviceLon tolerance =
      .badRequest m) ∧
    recordedVerification
      (completeHandler hav jsDate exif deviceLat deviceLon tolerance) = none := by
  rcases hbad with rfl | ⟨e, rfl, hfail⟩
  · exact ⟨⟨_, rfl⟩, rfl⟩
  · cases hla : parseExifGps e.gpsLatitude with
    | none =>
      simp only [completeHandler, hla]
      exact ⟨⟨_, rfl⟩, rfl⟩
    | some la =>
      cases hlo : parseExifGps e.gpsLongitude with
      | none =>
        simp only [completeHandler, hla, hlo]
        exact ⟨⟨_, rfl⟩, rfl⟩
      | some lo =>
        rcases hfail with h | h | ⟨msg, hts⟩
        · rw [hla] at h; cases h
        · rw [hlo] at h; cases h
        · simp only [completeHandler, hla, hlo, hts]
          exact ⟨⟨_, rfl⟩, rfl⟩

theorem exif_failure_hard_rejects_witness :
    (∃ m, completeHandler (fun _ _ _ _ => 0) (fun _ => none)
      (some ⟨none, none, none, none⟩) 0 0 50 = .badRequest m) ∧
    recordedVerification (completeHandler (fun _ _ _ _ => 0) (fun _ => none)
      (some ⟨none, none, none, none⟩) 0 0 50) = none :=
  exif_failure_hard_rejects (fun _ _ _ _ => 0) (fun _ => none)
    (some ⟨none, none, none, none⟩) 0 0 50
    (Or.inr ⟨⟨none, none, none, none⟩, rfl, Or.inl rfl⟩)

/-! ## C10: `parseExifGps` on DMS rational input -/

theorem jsNumber_cons (c : Char) (t : List Char) :
    jsNumber (c :: t) =
      if c = '-' then (jsNumberUnsigned t).map (fun q => -q)
      else if c = '+' then jsNumberUnsigned t
      else jsNumberUnsigned (c :: t) := rfl

theorem jsNumber_digits {l : List Char} (hne : l ≠ [])
    (hd : ∀ c ∈ l, c.isDigit = true) :
    jsNumber l = some (digitsVal l : ℚ) := by
  cases l with
  | nil => exact absurd rfl hne
  | cons c t =>
    have hc : c.isDigit = true := hd c (List.mem_cons_self c t)
    have h1 : c ≠ '-' := digit_ne hc (by decide)
    have h2 : c ≠ '+' := digit_ne hc (by decide)
    rw [jsNumber_cons, if_neg h1, if_neg h2]
    unfold jsNumberUnsigned
    simp only [takeWhile_eq_self_of_all hd, dropWhile_eq_nil_of_all hd]
    simp

theorem jsNumber_digits_slash {a r : List Char} (hne : a ≠ [])
    (hd : ∀ c ∈ a, c.isDigit = true) :
    jsNumber (a ++ '/' :: r) = none := by
  cases a with
  | nil => exact absurd rfl hne
  | cons c t =>
    have hc : c.isDigit = true := hd c (List.mem_cons_self c t)
    have h1 : c ≠ '-' := digit_ne hc (by decide)
    have h2 : c ≠ '+' := digit_ne hc (by decide)
    rw [List.cons_append, jsNumber_cons, if_neg h1, if_neg h2,
      ← List.cons_append]
    unfold jsNumberUnsigned
    simp only [takeWhile_append_of_all hd, dropWhile_append_of_all hd]
    have hslash : ('/' : Char).isDigit = false := by decide
    simp [List.takeWhile_cons, List.dropWhile_cons, hslash]

theorem splitOnChar_cons (sep c : Char) (t : List Char) :
    splitOnChar sep (c :: t) =
      if c = sep then [] :: splitOnChar sep t
      else (c :: (splitOnChar sep t).headD []) :: (splitOnChar sep t).tail := rfl

theorem splitOnChar_of_not_mem {sep : Char} :
    ∀ {a : List Char}, sep ∉ a → splitOnChar sep a = [a] := by
  intro a
  induction a with
  | nil => intro _; rfl
  | cons c t ih =>
    intro h
    have hc : ¬ c = sep := fun e => h (List.mem_cons.mpr (Or.inl e.symm))
    have ht : sep ∉ t := fun hm => h (List.mem_cons.mpr (Or.inr hm))
    rw [splitOnChar_cons, if_neg hc, ih ht]
    simp

theorem splitOnChar_append {sep : Char} :
    ∀ {a b : List Char}, sep ∉ a →
      splitOnChar sep (a ++ sep :: b) = a :: splitOnChar sep b := by
  intro a
  induction a with
  | nil =>
    intro b _
    simp [splitOnChar]
  | cons c t ih =>
    intro b h
    have hc : ¬ c = sep := fun e => h (List.mem_cons.mpr (Or.inl e.symm))
    have ht : sep ∉ t := fun hm => h (List.mem_cons.mpr (Or.inr hm))
    rw [List.cons_append, splitOnChar_cons, if_neg hc, ih ht]
    simp

theorem toNum_digits_over_one {a : List Char} (hne : a ≠ [])
    (hd : ∀ c ∈ a, c.isDigit = true) :
    toNum (a ++ ['/', '1']) = some (digitsVal a : ℚ) := by
  have hslash : '/' ∉ a := fun hm => absurd (hd '/' hm) (by decide)
  have htrim_a : trimList a = a :=
    trimList_eq_self_of_no_space
      (fun c hc => isJsSpace_eq_false_of_digit (hd c hc))
  unfold toNum
  rw [show a ++ ['/', '1'] = a ++ '/' :: ['1'] from rfl,
    splitOnChar_append hslash,
    splitOnChar_of_not_mem (show '/' ∉ ['1'] by decide)]
  simp only [List.map, htrim_a]
  rw [show trimList ['1'] = ['1'] from by decide]
  simp only [List.headD]
  rw [jsNumber_digits hne hd]
  simp only [List.getElem?_eq_getElem, List.length_cons]
  norm_num
  rw [show jsNumber ['1'] = some 1 from by decide]
  norm_num

theorem dms_chars {ds ms ss : List Char}
    (h1 : ∀ c ∈ ds, c.isDigit = true) (h2 : ∀ c ∈ ms, c.isDigit = true)
    (h3 : ∀ c ∈ ss, c.isDigit = true) :
    ∀ c ∈ dmsRationalString ds ms ss,
      c.isDigit = true ∨ c = '/' ∨ c = '1' ∨ c = ',' := by
  intro c hc
  unfold dmsRationalString at hc
  rcases List.mem_append.mp hc with h | hc
  · exact Or.inl (h1 c h)
  rcases List.mem_cons.mp hc with rfl | hc
  · exact Or.inr (Or.inl rfl)
  rcases List.mem_cons.mp hc with rfl | hc
  · exact Or.inr (Or.inr (Or.inl rfl))
  rcases List.mem_cons.mp hc with rfl | hc
  · exact Or.inr (Or.inr (Or.inr rfl))
  rcases List.mem_append.mp hc with h | hc
  · exact Or.inl (h2 c h)
  rcases List.mem_cons.mp hc with rfl | hc
  · exact Or.inr (Or.inl rfl)
  rcases List.mem_cons.mp hc with rfl | hc
  · exact Or.inr (Or.inr (Or.inl rfl))
  rcases List.mem_cons.mp hc with rfl | hc
  · exact Or.inr (Or.inr (Or.inr rfl))
  rcases List.mem_append.mp hc with h | hc
  · exact Or.inl (h3 c h)
  rcases List.mem_cons.mp hc with rfl | hc
  · exact Or.inr (Or.inl rfl)
  rcases List.mem_cons.mp hc with rfl | hc
  · exact Or.inr (Or.inr (Or.inl rfl))
  cases hc

theorem no_space_digits_slash_one {a : List Char}
    (hd : ∀ c ∈ a, c.isDigit = true) :
    ∀ c ∈ a ++ ['/', '1'], isJsSpace c = false := by
  intro c hc
  rcases List.mem_append.mp hc with h | h
  · exact isJsSpace_eq_false_of_digit (hd c h)
  · rcases List.mem_cons.mp h with rfl | h
    · decide
    · rcases List.mem_cons.mp h with rfl | h
      · decide
      · cases h

/-- C10: `parseExifGps` is total (a Lean function cannot throw), returns
null on null/undefined and on the empty string, and on every
degrees/minutes/seconds rational input of the shape `"d/1,m/1,s/1"` with
digit components returns `d + m/60 + s/3600`; no hemisphere reference is
an input of the function, and the result on such DMS input is never
negative. -/
theorem parseExifGps_total_dms :
    parseExifGps none = none ∧
    parseExifGps (some []) = none ∧
    (∀ ds ms ss : List Char, ds ≠ [] → ms ≠ [] → ss ≠ [] →
      ds.all Char.isDigit = true → ms.all Char.isDigit = true →
      ss.all Char.isDigit = true →
      parseExifGps (some (dmsRationalString ds ms ss)) =
        some ((digitsVal ds : ℚ) + (digitsVal ms : ℚ) / 60 +
          (digitsVal ss : ℚ) / 3600) ∧
      (0 : ℚ) ≤ (digitsVal ds : ℚ) + (digitsVal ms : ℚ) / 60 +
        (digitsVal ss : ℚ) / 3600) := by
  refine ⟨rfl, rfl, ?_⟩
  intro ds ms ss hdsne hmsne hssne hdsall hmsall hssall
  have h1 : ∀ c ∈ ds, c.isDigit = true := List.all_eq_true.mp hdsall
  have h2 : ∀ c ∈ ms, c.isDigit = true := List.all_eq_true.mp hmsall
  have h3 : ∀ c ∈ ss, c.isDigit = true := List.all_eq_true.mp hssall
  have hnospace : ∀ c ∈ dmsRationalString ds ms ss, isJsSpace c = false := by
    intro c hc
    rcases dms_chars h1 h2 h3 c hc with h | rfl | rfl | rfl
    · exact isJsSpace_eq_false_of_digit h
    · decide
    · decide
    · decide
  have htrim : trimList (dmsRationalString ds ms ss) = dmsRationalString ds ms ss :=
    trimList_eq_self_of_no_space hnospace
  have hfne : dmsRationalString ds ms ss ≠ [] := by
    unfold dmsRationalString
    simp [hdsne]
  have hjs : jsNumber (dmsRationalString ds ms ss) = none :=
    jsNumber_digits_slash hdsne h1
  have hmem : ',' ∈ dmsRationalString ds ms ss := by
    unfold dmsRationalString
    refine List.mem_append.mpr (Or.inr ?_)
    exact List.mem_cons.mpr (Or.inr (List.mem_cons.mpr (Or.inr
      (List.mem_cons.mpr (Or.inl rfl)))))
  have hcont : (dmsRationalString ds ms ss).contains ',' = true :=
    contains_of_mem hmem
  have hnm1 : ',' ∉ ds ++ ['/', '1'] := by
    intro hm
    rcases List.mem_append.mp hm with h | h
    · exact absurd (h1 ',' h) (by decide)
    · revert h; decide
  have hnm2 : ',' ∉ ms ++ ['/', '1'] := by
    intro hm
    rcases List.mem_append.mp hm with h | h
    · exact absurd (h2 ',' h) (by decide)
    · revert h; decide
  have hnm3 : ',' ∉ ss ++ ['/', '1'] := by
    intro hm
    rcases List.mem_append.mp hm with h | h
    · exact absurd (h3 ',' h) (by decide)
    · revert h; decide
  have hassoc : dmsRationalString ds ms ss =
      (ds ++ ['/', '1']) ++ ',' ::
        ((ms ++ ['/', '1']) ++ ',' :: (ss ++ ['/', '1'])) := by
    unfold dmsRationalString
    simp
  have hsplit : splitOnChar ',' (dmsRationalString ds ms ss) =
      [ds ++ ['/', '1'], ms ++ ['/', '1'], ss ++ ['/', '1']] := by
    rw [hassoc, splitOnChar_append hnm1, splitOnChar_append hnm2,
      splitOnChar_of_not_mem hnm3]
  have htr1 : trimList (ds ++ ['/', '1']) = ds ++ ['/', '1'] :=
    trimList_eq_self_of_no_space (no_space_digits_slash_one h1)
  have htr2 : trimList (ms ++ ['/', '1']) = ms ++ ['/', '1'] :=
    trimList_eq_self_of_no_space (no_space_digits_slash_one h2)
  have htr3 : trimList (ss ++ ['/', '1']) = ss ++ ['/', '1'] :=
    trimList_eq_self_of_no_space (no_space_digits_slash_one h3)
  constructor
  · unfold parseExifGps
    simp only [htrim, hjs, hcont, hsplit, List.map, htr1, htr2, htr3]
    rw [if_neg hfne]
    simp only [List.length_cons, List.length_nil, if_true]
    norm_num
    rw [toNum_digits_over_one hdsne h1, toNum_digits_over_one hmsne h2,
      toNum_digits_over_one hssne h3]
  · positivity

theorem parseExifGps_total_dms_witness :
    parseExifGps (some (dmsRationalString ("12".toList) ("34".toList)
        ("56".toList))) =
      some ((digitsVal ("12".toList) : ℚ) + (digitsVal ("34".toList) : ℚ) / 60 +
        (digitsVal ("56".toList) : ℚ) / 3600) ∧
    (0 : ℚ) ≤ (digitsVal ("12".toList) : ℚ) + (digitsVal ("34".toList) : ℚ) / 60 +
      (digitsVal ("56".toList) : ℚ) / 3600 :=
  parseExifGps_total_dms.2.2 ("12".toList) ("34".toList) ("56".toList)
    (by decide) (by decide) (by decide) (by decide) (by decide) (by decide)

end Kisaan
